import Mathlib

/-!
Verification of the training-account home-directory cleanup pipeline of
`jasmin-homedir-manager`.

The embedding models the two command files:
- `jasmin_homedir_manager/commands/training_cleanup.py`
  (`TrainingCleanupCommand.execute` and
  `TrainingCleanupCommand.confirm_user_cleanup`), and
- `jasmin_homedir_manager/commands/base.py`
  (`BaseCommand.get_authenticated_client`).

Filesystem paths are modelled as lists of components (`pathlib.Path`
equality becomes list equality after normalization); the filesystem is the
list of existing directory paths.  All observable actions of the command
(HTTP calls, logging, `click.echo` output, the prompt, `shutil.rmtree`,
`subprocess.run`) are recorded as an explicit event trace, and exceptions
(`click.Abort`, request errors) are explicit halt values, so that control
flow, ordering and frame conditions can be stated over traces.
-/

namespace JasminHomedirManager

/-- A filesystem path, as a list of components. -/
abbrev Path := List String

/-- One item of the list-candidates response (`response.json()` of the
first GET in `execute`): the fields the code reads are `username` and
`url`. -/
structure ListUser where
  username : String
  url : String
deriving DecidableEq, Repr

/-- The detail record of one candidate (`user_detailed` in `execute`): the
code reads `username` and `account.homeDirectory` (the latter parsed into
a `pathlib.Path`). -/
structure UserDetail where
  username : String
  homeDirectory : Path
deriving DecidableEq, Repr

/-- A validated answer of the `click.prompt` call in
`confirm_user_cleanup`: `click.Choice(["yes", "skip", "abort"])`
guarantees the prompt only ever returns one of the three choices. -/
inductive Choice where
  | yes
  | skip
  | abort
deriving DecidableEq, Repr

/-- Python's `str.startswith(p)`. -/
def pyStartsWith (s p : String) : Bool :=
  p.data.isPrefixOf s.data

/-- Python's `str.lower()` (ASCII case folding suffices for the three
prompt choices). -/
def pyToLower (s : String) : String :=
  String.mk (s.data.map Char.toLower)

/-- The conversion performed by
`click.Choice(["yes", "skip", "abort"], case_sensitive=False)`: the raw
input is matched case-insensitively against the three choices and the
matching (lower-case) choice is returned; any other input is rejected
(click re-prompts). -/
def clickChoiceConvert (raw : String) : Option Choice :=
  let l := pyToLower raw
  if l = "yes" then some Choice.yes
  else if l = "skip" then some Choice.skip
  else if l = "abort" then some Choice.abort
  else none

/-- Result of `confirm_user_cleanup`: a boolean return value, or the
`click.Abort` exception raised on the `abort` answer. -/
inductive GateRet where
  | ret (proceed : Bool)
  | abortExn
deriving DecidableEq, Repr

/-- Observable events of the command, in program order. -/
inductive Event where
  /-- The initial GET of the candidate list, with its query params. -/
  | getList (endpoint : String) (params : List (String × String))
  /-- The per-candidate GET of the detail record (`client.get(user["url"])`). -/
  | getDetail (url : String)
  /-- `logger.critical("Did nothing for %s, since the username does not start with train.", ...)`. -/
  | logCritical (username : String)
  /-- `logger.error("Home directory path check failed for %s. ...", ...)`. -/
  | logErrorPath (username : String) (ldap expected : Path)
  /-- `logger.error("Home directory did not exist for %s", ...)`. -/
  | logErrorMissing (username : String)
  /-- `logger.error("Careful mode enabled and user asked to skip %s", ...)`. -/
  | logErrorSkip (username : String)
  /-- `logger.info("Removing home directory %s", ...)`. -/
  | logInfoRemoving (home : Path)
  /-- `click.echo(f"\n{'='*50}")` / `click.echo(f"{'='*50}")` separator line. -/
  | echoSep
  /-- `click.echo(f"User: {user['username']}")`. -/
  | echoUser (username : String)
  /-- `click.echo(f"Home Directory: {home_dir}")`. -/
  | echoHome (home : Path)
  /-- The blocking `click.prompt(...)` call. -/
  | promptShown
  /-- `click.echo("Operation aborted by user")`. -/
  | echoAborted
  /-- `click.echo(f"[DRY RUN] Would move {home_directory} to .fast-remove")`. -/
  | echoDryMove (home : Path)
  /-- `click.echo(f"[DRY RUN] Would create empty home for {user['username']}")`. -/
  | echoDryCreate (username : String)
  /-- `click.echo(f"[DRY RUN] Would update {user['username']} to NORMAL state")`. -/
  | echoDryUpdate (username : String)
  /-- `shutil.rmtree(home_directory)`. -/
  | rmtree (home : Path)
  /-- `subprocess.run(args, check=check)`. -/
  | runHelper (args : List String) (check : Bool)
  /-- `client.patch(url, data=body)`. -/
  | patch (url : String) (body : List (String × String))
deriving DecidableEq, Repr

/-- Exceptions that escape the per-candidate processing: the `click.Abort`
raised by the confirmation gate, or a request exception from the HTTP
client (network error, bad response). -/
inductive Halt where
  | abort
  | exn
deriving DecidableEq, Repr

/-- How a whole run terminates. -/
inductive RunExit where
  | normal
  | aborted
  | exn
deriving DecidableEq, Repr

/-- `TrainingCleanupCommand.confirm_user_cleanup(self, user, home_dir, careful)`.
`response` is the (already `click.Choice`-validated) answer of the
prompt; it is only consulted when `careful` is true. -/
def confirm_user_cleanup (username : String) (home_dir : Path)
    (careful : Bool) (response : Choice) : GateRet × List Event :=
  if careful = false then
    (GateRet.ret true, [])
  else
    let tr : List Event :=
      [Event.echoSep, Event.echoUser username, Event.echoHome home_dir,
       Event.echoSep, Event.promptShown]
    match response with
    | Choice.abort => (GateRet.abortExn, tr ++ [Event.echoAborted])
    | Choice.yes => (GateRet.ret true, tr)
    | Choice.skip => (GateRet.ret false, tr)

/-- The verdict of the eligibility check chain (the `if`/`elif` conditions
of `execute`, in code order). -/
inductive Verdict where
  | eligible
  | notTrainingAccount
  | pathMismatch
  | directoryMissing
deriving DecidableEq, Repr

/-- `home_directory.is_dir()`: the computed path exists as a directory. -/
def is_dir (fs : List Path) (p : Path) : Bool :=
  fs.contains p

/-- `shutil.rmtree(p)`: the directory `p` and everything below it is
removed from the filesystem. -/
def rmtreeFs (fs : List Path) (p : Path) : List Path :=
  fs.filter (fun q => !(p.isPrefixOf q))

/-- The eligibility check chain of `execute`, factored as a pure function
(exact conditions in code order): `user["username"].startswith("train")`,
then `home_directory == home_directory_constructed` where
`home_directory_constructed = settings.home_dir_folder / user_detailed["username"]`,
then `home_directory.is_dir()`. -/
def evaluate (home_dir_folder : Path) (fs : List Path)
    (user : ListUser) (detail : UserDetail) : Verdict :=
  if pyStartsWith user.username "train" = false then
    Verdict.notTrainingAccount
  else if detail.homeDirectory ≠ home_dir_folder ++ [detail.username] then
    Verdict.pathMismatch
  else if is_dir fs detail.homeDirectory = false then
    Verdict.directoryMissing
  else
    Verdict.eligible

/-- The environment of one run: the configuration read from settings and
CLI flags, and oracles for the external world (detail responses by url,
prompt answers by username, patch responses by url, helper exit codes by
username).  The helper's exit code is included so that (in)dependence of
the command's behaviour on it can be stated. -/
structure Env where
  home_dir_folder : Path
  dry_run : Bool
  careful : Bool
  detail : String → Except Unit UserDetail
  choice : String → Choice
  patchResp : String → Except Unit Unit
  helperExit : String → Int

/-- One iteration of the `for user in response.json()` loop of
`TrainingCleanupCommand.execute`: fetch the detail record, run the check
chain, the confirmation gate and, when everything passes, either the
dry-run previews or the destructive steps.  Returns the new filesystem,
the trace of this iteration, and the escaping exception, if any. -/
def processUser (env : Env) (fs : List Path) (user : ListUser) :
    List Path × List Event × Option Halt :=
  match env.detail user.url with
  | Except.error _ => (fs, [Event.getDetail user.url], some Halt.exn)
  | Except.ok user_detailed =>
    let tr0 : List Event := [Event.getDetail user.url]
    let home_directory := user_detailed.homeDirectory
    let home_directory_constructed :=
      env.home_dir_folder ++ [user_detailed.username]
    if pyStartsWith user.username "train" = false then
      (fs, tr0 ++ [Event.logCritical user.username], none)
    else if home_directory ≠ home_directory_constructed then
      (fs, tr0 ++ [Event.logErrorPath user.username home_directory
                     home_directory_constructed], none)
    else if is_dir fs home_directory = false then
      (fs, tr0 ++ [Event.logErrorMissing user.username], none)
    else
      match confirm_user_cleanup user.username home_directory env.careful
          (env.choice user.username) with
      | (GateRet.abortExn, gtr) => (fs, tr0 ++ gtr, some Halt.abort)
      | (GateRet.ret false, gtr) =>
        (fs, tr0 ++ gtr ++ [Event.logErrorSkip user.username], none)
      | (GateRet.ret true, gtr) =>
        let tr1 := tr0 ++ gtr ++ [Event.logInfoRemoving home_directory]
        if env.dry_run then
          (fs, tr1 ++ [Event.echoDryMove home_directory,
                       Event.echoDryCreate user.username,
                       Event.echoDryUpdate user.username], none)
        else
          let fs1 := rmtreeFs fs home_directory
          let tr2 := tr1 ++
            [Event.rmtree home_directory,
             Event.runHelper ["/usr/sbin/mkhomedir_helper", user.username] false,
             Event.patch user.url [("lifecycle_state", "NORMAL")]]
          match env.patchResp user.url with
          | Except.error _ => (fs1, tr2, some Halt.exn)
          | Except.ok _ => (fs1, tr2, none)

/-- The candidate loop of `execute`: candidates are processed strictly in
list order; a `click.Abort` or a request exception escaping one iteration
terminates the whole loop. -/
def runUsers (env : Env) (fs : List Path) :
    List ListUser → List Path × List Event × RunExit
  | [] => (fs, [], RunExit.normal)
  | user :: rest =>
    match processUser env fs user with
    | (fs1, tr, some Halt.abort) => (fs1, tr, RunExit.aborted)
    | (fs1, tr, some Halt.exn) => (fs1, tr, RunExit.exn)
    | (fs1, tr, none) =>
      match runUsers env fs1 rest with
      | (fs2, tr2, x) => (fs2, tr ++ tr2, x)

/-- The query parameters of the initial list GET. -/
def listParams : List (String × String) :=
  [("user_type", "TRAINING"), ("lifecycle_state", "AWAITING_CLEANUP"),
   ("is_active", "false")]

/-- `TrainingCleanupCommand.execute`: one GET of the candidate list (with
the `listParams` query parameters), then the candidate loop over the
parsed response. -/
def executeRun (env : Env) (users_endpoint : String)
    (listResp : List ListUser) (fs : List Path) :
    List Path × List Event × RunExit :=
  match runUsers env fs listResp with
  | (fs1, tr, x) => (fs1, Event.getList users_endpoint listParams :: tr, x)

/-- The state-mutating events: the recursive delete, the helper
invocation and the remote PATCH. -/
def mutationEvents (tr : List Event) : List Event :=
  tr.filter (fun e =>
    match e with
    | Event.rmtree _ => true
    | Event.runHelper _ _ => true
    | Event.patch _ _ => true
    | _ => false)

/-- The network events: list GET, detail GET, PATCH. -/
def netEvents (tr : List Event) : List Event :=
  tr.filter (fun e =>
    match e with
    | Event.getList _ _ => true
    | Event.getDetail _ => true
    | Event.patch _ _ => true
    | _ => false)

/-- Just the detail GET events. -/
def detailEvents (tr : List Event) : List Event :=
  tr.filter (fun e =>
    match e with
    | Event.getDetail _ => true
    | _ => false)

/-- Just the list GET events. -/
def listGetEvents (tr : List Event) : List Event :=
  tr.filter (fun e =>
    match e with
    | Event.getList _ _ => true
    | _ => false)

/-- The dry-run preview notices. -/
def dryNotices (tr : List Event) : List Event :=
  tr.filter (fun e =>
    match e with
    | Event.echoDryMove _ => true
    | Event.echoDryCreate _ => true
    | Event.echoDryUpdate _ => true
    | _ => false)

/-- The prompt invocations. -/
def promptEvents (tr : List Event) : List Event :=
  tr.filter (fun e =>
    match e with
    | Event.promptShown => true
    | _ => false)

end JasminHomedirManager

namespace JasminHomedirManager.Base

/-- The settings fields read by `BaseCommand.get_authenticated_client`. -/
structure AuthSettings where
  client_id : String
  client_secret : String
  scopes : List String
  token_endpoint : String
deriving DecidableEq, Repr

/-- The `OAuth2Client` as constructed by `get_authenticated_client`: its
constructor arguments `(client_id, client_secret, scope=" ".join(scopes),
timeout=5)`. -/
structure OAuth2Client where
  client_id : String
  client_secret : String
  scope : String
  timeout : Nat
deriving DecidableEq, Repr

/-- Observable events of `get_authenticated_client`. -/
inductive AuthEvent where
  /-- Construction of the `OAuth2Client`. -/
  | constructClient (c : OAuth2Client)
  /-- `self.client.fetch_token(token_endpoint, grant_type="client_credentials")`. -/
  | fetchToken (endpoint : String) (grant : String)
  /-- `logger.info("Successfully authenticated with JASMIN API")`. -/
  | logAuthInfo
deriving DecidableEq, Repr

/-- `BaseCommand.get_authenticated_client`: `self.client` is the cached
client (initially `None`); on the first call the client is constructed
and a token fetched, afterwards the cached instance is returned as is. -/
def get_authenticated_client (s : AuthSettings) (client : Option OAuth2Client) :
    OAuth2Client × Option OAuth2Client × List AuthEvent :=
  match client with
  | some c => (c, some c, [])
  | none =>
    let c : OAuth2Client :=
      ⟨s.client_id, s.client_secret, String.intercalate " " s.scopes, 5⟩
    (c, some c,
     [AuthEvent.constructClient c,
      AuthEvent.fetchToken s.token_endpoint "client_credentials",
      AuthEvent.logAuthInfo])

/-- The client-construction events of a trace. -/
def constructEvents (tr : List AuthEvent) : List AuthEvent :=
  tr.filter (fun e =>
    match e with
    | AuthEvent.constructClient _ => true
    | _ => false)

/-- The token-fetch events of a trace. -/
def fetchTokenEvents (tr : List AuthEvent) : List AuthEvent :=
  tr.filter (fun e =>
    match e with
    | AuthEvent.fetchToken _ _ => true
    | _ => false)

end JasminHomedirManager.Base

namespace JasminHomedirManager

def croot : Path := ["home", "users"]

def cuser1 : ListUser := ⟨"train001", "u1"⟩

def cuser2 : ListUser := ⟨"train002", "u2"⟩

def cdetail1 : UserDetail := ⟨"train001", ["home", "users", "train001"]⟩

def cfs : List Path := [["home", "users", "train001"], ["home", "users", ".fast-remove"]]

def cdetailFn : String → Except Unit UserDetail :=
  fun url => if url = "u1" then Except.ok cdetail1 else Except.error ()

def cEnvReal : Env :=
  ⟨croot, false, false, cdetailFn, fun _ => Choice.yes, fun _ => Except.ok (), fun _ => 0⟩

def cEnvDry : Env :=
  ⟨croot, true, false, cdetailFn, fun _ => Choice.yes, fun _ => Except.ok (), fun _ => 0⟩

def cEnvAbort : Env :=
  ⟨croot, false, true, cdetailFn, fun _ => Choice.abort, fun _ => Except.ok (), fun _ => 0⟩

def cEnvDetailFail : Env :=
  ⟨croot, false, false, fun _ => Except.error (), fun _ => Choice.yes,
   fun _ => Except.ok (), fun _ => 0⟩

def cEnvHelperFail : Env :=
  ⟨croot, false, false, cdetailFn, fun _ => Choice.yes, fun _ => Except.ok (), fun _ => 1⟩

def cdetailFn2 : String → Except Unit UserDetail :=
  fun url =>
    if url = "u1" then Except.ok ⟨"train001", ["home", "users", "train001"]⟩
    else if url = "u2" then Except.ok ⟨"train002", ["home", "users", "train002"]⟩
    else Except.error ()

def cEnvTwo : Env :=
  ⟨croot, false, false, cdetailFn2, fun _ => Choice.yes, fun _ => Except.ok (), fun _ => 0⟩

def cfs2 : List Path :=
  [["home", "users", "train001"], ["home", "users", "train002"],
   ["home", "users", ".fast-remove"]]

def cdetailFnBob : String → Except Unit UserDetail :=
  fun url => if url = "u1" then Except.ok ⟨"bob", ["home", "users", "bob"]⟩
             else Except.error ()

def cEnvBob : Env :=
  ⟨croot, false, false, cdetailFnBob, fun _ => Choice.yes, fun _ => Except.ok (), fun _ => 0⟩

def cfsBob : List Path := [["home", "users", "bob"]]

end JasminHomedirManager

namespace JasminHomedirManager

lemma gate_mutationEvents (un : String) (hd : Path) (cf : Bool) (c : Choice) :
    mutationEvents (confirm_user_cleanup un hd cf c).2 = [] := by
  cases cf <;> cases c <;>
    simp [confirm_user_cleanup, mutationEvents]

lemma gate_detailEvents (un : String) (hd : Path) (cf : Bool) (c : Choice) :
    detailEvents (confirm_user_cleanup un hd cf c).2 = [] := by
  cases cf <;> cases c <;>
    simp [confirm_user_cleanup, detailEvents]

lemma gate_netEvents (un : String) (hd : Path) (cf : Bool) (c : Choice) :
    netEvents (confirm_user_cleanup un hd cf c).2 = [] := by
  cases cf <;> cases c <;>
    simp [confirm_user_cleanup, netEvents]

lemma gate_dryNotices (un : String) (hd : Path) (cf : Bool) (c : Choice) :
    dryNotices (confirm_user_cleanup un hd cf c).2 = [] := by
  cases cf <;> cases c <;>
    simp [confirm_user_cleanup, dryNotices]

lemma gate_listGetEvents (un : String) (hd : Path) (cf : Bool) (c : Choice) :
    listGetEvents (confirm_user_cleanup un hd cf c).2 = [] := by
  cases cf <;> cases c <;>
    simp [confirm_user_cleanup, listGetEvents]

lemma evaluate_eq_eligible (root : Path) (fs : List Path)
    (u : ListUser) (d : UserDetail) :
    evaluate root fs u d = Verdict.eligible ↔
      (pyStartsWith u.username "train" = true ∧
       d.homeDirectory = root ++ [d.username] ∧
       is_dir fs d.homeDirectory = true) := by
  unfold evaluate
  split_ifs with h1 h2 h3 <;> simp_all

end JasminHomedirManager

namespace JasminHomedirManager

/-- Claim C1: for an eligible candidate that reaches real-mode execution
(`train001`, detail home `home/users/train001`, directory present,
careful off, dry-run off), the destructive step is `shutil.rmtree` of the
home directory in place: the resulting filesystem no longer contains the
home directory, nothing appears under the reserved reclamation area
`home_dir_root/.fast-remove`, and the trace contains an in-place
recursive delete (there is no rename/move operation in the command at
all).  This contradicts the claimed relocation into the reclamation
area. -/
theorem claim_C1_rmtree_not_move :
    processUser cEnvReal cfs cuser1 =
      ([["home", "users", ".fast-remove"]],
       [Event.getDetail "u1",
        Event.logInfoRemoving ["home", "users", "train001"],
        Event.rmtree ["home", "users", "train001"],
        Event.runHelper ["/usr/sbin/mkhomedir_helper", "train001"] false,
        Event.patch "u1" [("lifecycle_state", "NORMAL")]], none)
    ∧ ["home", "users", ".fast-remove", "train001"] ∉
        (processUser cEnvReal cfs cuser1).1
    ∧ Event.rmtree ["home", "users", "train001"] ∈
        (processUser cEnvReal cfs cuser1).2.1 := by
  refine ⟨by decide, by decide, by decide⟩

end JasminHomedirManager

namespace JasminHomedirManager

/-- Claim C7: the confirmation gate returns Proceed with no I/O at all
when `careful` is false; when `careful` is true it shows the username and
home directory, blocks on exactly one prompt whose accepted values are,
case-insensitively, exactly `yes`, `skip` and `abort`, and maps
`yes` to Proceed (`ret true`), `skip` to Skip (`ret false`) and `abort`
to Abort (the `click.Abort` exception). -/
theorem claim_C7_gate (un : String) (hd : Path) :
    (∀ c, confirm_user_cleanup un hd false c = (GateRet.ret true, []))
    ∧ confirm_user_cleanup un hd true Choice.yes =
        (GateRet.ret true,
         [Event.echoSep, Event.echoUser un, Event.echoHome hd,
          Event.echoSep, Event.promptShown])
    ∧ confirm_user_cleanup un hd true Choice.skip =
        (GateRet.ret false,
         [Event.echoSep, Event.echoUser un, Event.echoHome hd,
          Event.echoSep, Event.promptShown])
    ∧ confirm_user_cleanup un hd true Choice.abort =
        (GateRet.abortExn,
         [Event.echoSep, Event.echoUser un, Event.echoHome hd,
          Event.echoSep, Event.promptShown, Event.echoAborted])
    ∧ (∀ c, promptEvents (confirm_user_cleanup un hd true c).2 =
        [Event.promptShown])
    ∧ (∀ raw c, clickChoiceConvert raw = some c ↔
        ((pyToLower raw = "yes" ∧ c = Choice.yes)
         ∨ (pyToLower raw = "skip" ∧ c = Choice.skip)
         ∨ (pyToLower raw = "abort" ∧ c = Choice.abort))) := by
  refine ⟨fun c => by cases c <;> rfl, rfl, rfl, rfl,
    fun c => by cases c <;> simp [confirm_user_cleanup, promptEvents],
    fun raw c => ?_⟩
  simp only [clickChoiceConvert]
  split_ifs with h1 h2 h3 <;> cases c <;> simp_all

/-- Witness for claim C7 at concrete inputs: with careful off the gate
returns Proceed without output even for an `abort` answer; the
case-insensitive conversions accept `YES` and `Abort`. -/
theorem claim_C7_gate_witness :
    confirm_user_cleanup "train001" ["home", "users", "train001"] false
        Choice.abort = (GateRet.ret true, [])
    ∧ clickChoiceConvert "YES" = some Choice.yes
    ∧ clickChoiceConvert "Abort" = some Choice.abort := by
  refine ⟨(claim_C7_gate "train001" ["home", "users", "train001"]).1 Choice.abort,
    ?_, ?_⟩
  · exact ((claim_C7_gate "x" []).2.2.2.2.2 "YES" Choice.yes).2 (Or.inl (by decide))
  · exact ((claim_C7_gate "x" []).2.2.2.2.2 "Abort" Choice.abort).2
      (Or.inr (Or.inr (by decide)))

end JasminHomedirManager

namespace JasminHomedirManager.Base

/-- Claim C10: `get_authenticated_client` is idempotent.  The first call
(on the initial `None` cache) constructs the OAuth2 client (with
`client_id`, `client_secret`, the space-joined scopes and timeout 5) and
fetches a token, each exactly once; every subsequent call returns the
identical cached client with no construction, no token fetch and no
events at all. -/
theorem claim_C10_client_idempotent (s : AuthSettings) :
    (get_authenticated_client s
        (get_authenticated_client s none).2.1) =
      ((get_authenticated_client s none).1,
       (get_authenticated_client s none).2.1, [])
    ∧ constructEvents (get_authenticated_client s none).2.2 =
        [AuthEvent.constructClient
          ⟨s.client_id, s.client_secret, String.intercalate " " s.scopes, 5⟩]
    ∧ fetchTokenEvents (get_authenticated_client s none).2.2 =
        [AuthEvent.fetchToken s.token_endpoint "client_credentials"]
    ∧ (∀ c, get_authenticated_client s (some c) = (c, some c, [])) := by
  refine ⟨rfl, ?_, ?_, fun c => rfl⟩
  · simp [get_authenticated_client, constructEvents]
  · simp [get_authenticated_client, fetchTokenEvents]

end JasminHomedirManager.Base

namespace JasminHomedirManager

/-- Claim C2: the eligibility checks form an ordered, short-circuiting
chain — a failing `train`-prefix check gives NotTrainingAccount, next a
failing path comparison against `home_dir_root/username` gives
PathMismatch, next a missing directory gives DirectoryMissing, and all
three passing gives Eligible — and whenever the verdict is not Eligible
the candidate's processing leaves the filesystem unchanged and performs
no mutating action (no delete, no helper invocation, no PATCH). -/
theorem claim_C2_check_chain (env : Env) (fs : List Path) (u : ListUser)
    (d : UserDetail) (hd : env.detail u.url = Except.ok d) :
    (pyStartsWith u.username "train" = false →
      evaluate env.home_dir_folder fs u d = Verdict.notTrainingAccount)
    ∧ (pyStartsWith u.username "train" = true →
       d.homeDirectory ≠ env.home_dir_folder ++ [d.username] →
       evaluate env.home_dir_folder fs u d = Verdict.pathMismatch)
    ∧ (pyStartsWith u.username "train" = true →
       d.homeDirectory = env.home_dir_folder ++ [d.username] →
       is_dir fs d.homeDirectory = false →
       evaluate env.home_dir_folder fs u d = Verdict.directoryMissing)
    ∧ (pyStartsWith u.username "train" = true →
       d.homeDirectory = env.home_dir_folder ++ [d.username] →
       is_dir fs d.homeDirectory = true →
       evaluate env.home_dir_folder fs u d = Verdict.eligible)
    ∧ (evaluate env.home_dir_folder fs u d ≠ Verdict.eligible →
       (processUser env fs u).1 = fs ∧
       mutationEvents (processUser env fs u).2.1 = []) := by
  refine ⟨?_, ?_, ?_, ?_, ?_⟩
  · intro h1
    simp [evaluate, h1]
  · intro h1 h2
    simp [evaluate, h1, h2]
  · intro h1 h2 h3
    rw [h2] at h3
    simp [evaluate, h1, h2, h3]
  · intro h1 h2 h3
    rw [h2] at h3
    simp [evaluate, h1, h2, h3]
  · intro hv
    by_cases h1 : pyStartsWith u.username "train" = false
    · simp [processUser, hd, h1, mutationEvents]
    · by_cases h2 : d.homeDirectory = env.home_dir_folder ++ [d.username]
      · by_cases h3 : is_dir fs d.homeDirectory = false
        · rw [h2] at h3
          simp [processUser, hd, h1, h2, h3, mutationEvents]
        · exact absurd ((evaluate_eq_eligible env.home_dir_folder fs u d).2
            ⟨by simpa using h1, h2, by simpa using h3⟩) hv
      · simp [processUser, hd, h1, h2, mutationEvents]

end JasminHomedirManager

namespace JasminHomedirManager

/-- Witness for claim C2 at a concrete input: `train001` with a matching
reported home directory but an empty filesystem (so the directory is
missing) is processed with no filesystem change and no mutating action. -/
theorem claim_C2_check_chain_witness :
    (processUser cEnvReal [] cuser1).1 = [] ∧
    mutationEvents (processUser cEnvReal [] cuser1).2.1 = [] :=
  (claim_C2_check_chain cEnvReal [] cuser1 cdetail1 rfl).2.2.2.2
    (by decide)

/-- Claim C3: when the careful-mode prompt answers `abort` for a
candidate, the whole run halts at that candidate: the loop returns
immediately with the aborted exit, the current candidate suffers no
rename/delete, helper invocation or PATCH (the filesystem is unchanged
and the candidate's trace holds no mutating event), and no later
candidate in the list is processed (the run's trace is exactly the
aborting candidate's trace). -/
theorem claim_C3_abort_halts (env : Env) (fs : List Path) (u : ListUser)
    (rest : List ListUser)
    (h : (processUser env fs u).2.2 = some Halt.abort) :
    runUsers env fs (u :: rest) =
      ((processUser env fs u).1, (processUser env fs u).2.1, RunExit.aborted)
    ∧ (processUser env fs u).1 = fs
    ∧ mutationEvents (processUser env fs u).2.1 = [] := by
  refine ⟨?_, ?_⟩
  · rcases hp : processUser env fs u with ⟨fs1, tr, halt⟩
    rw [hp] at h
    simp at h
    subst h
    simp [runUsers, hp]
  · rcases hdet : env.detail u.url with e | d
    · rw [processUser, hdet] at h ⊢
      simp at h
    · by_cases h1 : pyStartsWith u.username "train" = false
      · rw [processUser, hdet] at h ⊢
        simp [h1] at h
      · by_cases h2 : d.homeDirectory = env.home_dir_folder ++ [d.username]
        · by_cases h3 : is_dir fs d.homeDirectory = false
          · rw [h2] at h3
            rw [processUser, hdet] at h ⊢
            simp [h1, h2, h3] at h
          · rw [h2] at h3
            rcases hg : confirm_user_cleanup u.username
                (env.home_dir_folder ++ [d.username]) env.careful
                (env.choice u.username) with ⟨gr, gtr⟩
            cases gr with
            | abortExn =>
              have hgtr : mutationEvents gtr = [] := by
                have := gate_mutationEvents u.username
                  (env.home_dir_folder ++ [d.username]) env.careful
                  (env.choice u.username)
                rw [hg] at this
                exact this
              rw [processUser, hdet]
              simp [h1, h2, h3, hg, mutationEvents, hgtr]
              intro a ha
              simpa using List.filter_eq_nil_iff.mp hgtr a ha
            | ret b =>
              cases b
              · rw [processUser, hdet] at h
                simp [h1, h2, h3, hg] at h
              · rw [processUser, hdet] at h
                by_cases hdr : env.dry_run = true
                · simp [h1, h2, h3, hg, hdr] at h
                · rcases hpr : env.patchResp u.url with e | v
                  · simp [h1, h2, h3, hg, hdr, hpr] at h
                  · simp [h1, h2, h3, hg, hdr, hpr] at h
        · rw [processUser, hdet] at h
          simp [h1, h2] at h

end JasminHomedirManager

namespace JasminHomedirManager

/-- Witness for claim C3 at a concrete input: careful mode with an
`abort` answer on eligible candidate `train001` halts the two-candidate
run at once — `train002` is never processed, the filesystem is unchanged
and no mutating action was taken for `train001`. -/
theorem claim_C3_abort_halts_witness :
    runUsers cEnvAbort cfs [cuser1, cuser2] =
      ((processUser cEnvAbort cfs cuser1).1,
       (processUser cEnvAbort cfs cuser1).2.1, RunExit.aborted)
    ∧ (processUser cEnvAbort cfs cuser1).1 = cfs
    ∧ mutationEvents (processUser cEnvAbort cfs cuser1).2.1 = [] :=
  claim_C3_abort_halts cEnvAbort cfs cuser1 [cuser2] (by decide)

/-- Claim C4: in dry-run mode, an Eligible candidate whose confirmation
gate yields Proceed causes no filesystem change and no mutating action
(no delete, no helper run, no PATCH), while exactly one preview notice is
emitted per real-mode step — move, create, update — in that order and
with the same computed home directory and username that real mode uses
for its three steps; real mode emits no preview notices. -/
theorem claim_C4_dry_run (root : Path) (cf : Bool)
    (dt : String → Except Unit UserDetail) (ch : String → Choice)
    (pr : String → Except Unit Unit) (he he2 : String → Int)
    (fs : List Path) (u : ListUser) (d : UserDetail)
    (hd : dt u.url = Except.ok d)
    (hv : evaluate root fs u d = Verdict.eligible)
    (hg : (confirm_user_cleanup u.username d.homeDirectory cf
            (ch u.username)).1 = GateRet.ret true)
    (hp : pr u.url = Except.ok ()) :
    (processUser ⟨root, true, cf, dt, ch, pr, he⟩ fs u).1 = fs
    ∧ (processUser ⟨root, true, cf, dt, ch, pr, he⟩ fs u).2.2 = none
    ∧ mutationEvents (processUser ⟨root, true, cf, dt, ch, pr, he⟩ fs u).2.1 = []
    ∧ dryNotices (processUser ⟨root, true, cf, dt, ch, pr, he⟩ fs u).2.1 =
        [Event.echoDryMove d.homeDirectory, Event.echoDryCreate u.username,
         Event.echoDryUpdate u.username]
    ∧ mutationEvents (processUser ⟨root, false, cf, dt, ch, pr, he2⟩ fs u).2.1 =
        [Event.rmtree d.homeDirectory,
         Event.runHelper ["/usr/sbin/mkhomedir_helper", u.username] false,
         Event.patch u.url [("lifecycle_state", "NORMAL")]]
    ∧ dryNotices (processUser ⟨root, false, cf, dt, ch, pr, he2⟩ fs u).2.1 = [] := by
  obtain ⟨h1, h2, h3⟩ := (evaluate_eq_eligible root fs u d).1 hv
  have h1f : ¬ pyStartsWith u.username "train" = false := by simp [h1]
  have h3f : ¬ is_dir fs (root ++ [d.username]) = false := by
    rw [← h2]
    simp [h3]
  rw [h2] at hg
  rcases hgp : confirm_user_cleanup u.username (root ++ [d.username]) cf
      (ch u.username) with ⟨gr, gtr⟩
  rw [hgp] at hg
  simp only at hg
  subst hg
  have hgmut := gate_mutationEvents u.username (root ++ [d.username]) cf
    (ch u.username)
  have hgdry := gate_dryNotices u.username (root ++ [d.username]) cf
    (ch u.username)
  rw [hgp] at hgmut hgdry
  simp only at hgmut hgdry
  refine ⟨?_, ?_, ?_, ?_, ?_, ?_⟩ <;>
    simp [processUser, hd, h1f, h2, h3f, hgp, hp, mutationEvents, dryNotices,
      List.filter_eq_nil_iff] at hgmut hgdry ⊢ <;>
    (intro a ha
     first
       | simpa using hgmut a ha
       | simpa using hgdry a ha)

end JasminHomedirManager

namespace JasminHomedirManager

/-- Witness for claim C4 at a concrete input: dry run over eligible
`train001` leaves the filesystem as is and emits exactly the three
previews, matching real mode's three mutating steps. -/
theorem claim_C4_dry_run_witness :
    (processUser cEnvDry cfs cuser1).1 = cfs
    ∧ (processUser cEnvDry cfs cuser1).2.2 = none
    ∧ mutationEvents (processUser cEnvDry cfs cuser1).2.1 = []
    ∧ dryNotices (processUser cEnvDry cfs cuser1).2.1 =
        [Event.echoDryMove ["home", "users", "train001"],
         Event.echoDryCreate "train001", Event.echoDryUpdate "train001"]
    ∧ mutationEvents (processUser cEnvReal cfs cuser1).2.1 =
        [Event.rmtree ["home", "users", "train001"],
         Event.runHelper ["/usr/sbin/mkhomedir_helper", "train001"] false,
         Event.patch "u1" [("lifecycle_state", "NORMAL")]]
    ∧ dryNotices (processUser cEnvReal cfs cuser1).2.1 = [] :=
  claim_C4_dry_run croot false cdetailFn (fun _ => Choice.yes)
    (fun _ => Except.ok ()) (fun _ => 0) (fun _ => 0) cfs cuser1 cdetail1
    rfl (by decide) (by decide) rfl

/-- Counterexample for claim C5: with every detail GET failing, a
two-candidate run stops at the first candidate with an escaped
exception — the second candidate's detail record is never fetched,
nothing is recorded, and the run does not continue. -/
theorem claim_C5_counterexample :
    runUsers cEnvDetailFail cfs [cuser1, cuser2] =
      (cfs, [Event.getDetail "u1"], RunExit.exn)
    ∧ (runUsers cEnvDetailFail cfs [cuser1, cuser2]).2.2 ≠ RunExit.normal
    ∧ Event.getDetail "u2" ∉ (runUsers cEnvDetailFail cfs [cuser1, cuser2]).2.1 := by
  refine ⟨by decide, by decide, by decide⟩

/-- Claim C5 (amended): a failing remote call while processing one
candidate (the detail GET erroring, or any request exception escaping
that candidate's processing, such as the PATCH erroring) terminates the
whole run right there: the loop returns with the exception exit, the
trace ends with the failing candidate's trace, and no later candidate is
processed. -/
theorem claim_C5_remote_failure_aborts_run (env : Env) (fs : List Path)
    (u : ListUser) (rest : List ListUser) :
    (env.detail u.url = Except.error () →
      runUsers env fs (u :: rest) = (fs, [Event.getDetail u.url], RunExit.exn))
    ∧ ((processUser env fs u).2.2 = some Halt.exn →
      runUsers env fs (u :: rest) =
        ((processUser env fs u).1, (processUser env fs u).2.1, RunExit.exn)) := by
  constructor
  · intro h
    simp [runUsers, processUser, h]
  · intro h
    rcases hp : processUser env fs u with ⟨fs1, tr, halt⟩
    rw [hp] at h
    simp at h
    subst h
    simp [runUsers, hp]

/-- Witness for claim C5 (amended) at a concrete input: the first
candidate's detail GET failing ends the two-candidate run at once. -/
theorem claim_C5_remote_failure_aborts_run_witness :
    runUsers cEnvDetailFail cfs [cuser1, cuser2] =
      (cfs, [Event.getDetail "u1"], RunExit.exn) :=
  (claim_C5_remote_failure_aborts_run cEnvDetailFail cfs cuser1 [cuser2]).1 rfl

/-- Counterexample for claim C6: with the provisioning helper failing
(exit status 1), the real-mode trace for eligible candidate `train001`
holds no log or output event after the helper invocation other than the
PATCH — the helper failure is not logged at all — and the whole
processing result is identical to a run whose helper succeeds (exit
status 0). -/
theorem claim_C6_counterexample :
    processUser cEnvHelperFail cfs cuser1 =
      ([["home", "users", ".fast-remove"]],
       [Event.getDetail "u1",
        Event.logInfoRemoving ["home", "users", "train001"],
        Event.rmtree ["home", "users", "train001"],
        Event.runHelper ["/usr/sbin/mkhomedir_helper", "train001"] false,
        Event.patch "u1" [("lifecycle_state", "NORMAL")]], none)
    ∧ processUser cEnvHelperFail cfs cuser1 = processUser cEnvReal cfs cuser1 := by
  refine ⟨by decide, by decide⟩

/-- Claim C6 (amended): in real mode the helper is invoked with the
username as sole argument, after the destructive step and with its exit
status not checked (`check=False`); the PATCH setting `lifecycle_state`
to NORMAL is always issued after the helper invocation, and the
command's behaviour is entirely independent of the helper's exit status
— in particular a helper failure does not prevent the PATCH, but it is
also not logged: no event distinguishes a failed helper run. -/
theorem claim_C6_helper_best_effort (root : Path) (cf : Bool)
    (dt : String → Except Unit UserDetail) (ch : String → Choice)
    (pr : String → Except Unit Unit) (he he2 : String → Int)
    (fs : List Path) (u : ListUser) (d : UserDetail)
    (hd : dt u.url = Except.ok d)
    (hv : evaluate root fs u d = Verdict.eligible)
    (hg : (confirm_user_cleanup u.username d.homeDirectory cf
            (ch u.username)).1 = GateRet.ret true)
    (hp : pr u.url = Except.ok ()) :
    mutationEvents (processUser ⟨root, false, cf, dt, ch, pr, he⟩ fs u).2.1 =
      [Event.rmtree d.homeDirectory,
       Event.runHelper ["/usr/sbin/mkhomedir_helper", u.username] false,
       Event.patch u.url [("lifecycle_state", "NORMAL")]]
    ∧ processUser ⟨root, false, cf, dt, ch, pr, he⟩ fs u =
        processUser ⟨root, false, cf, dt, ch, pr, he2⟩ fs u := by
  refine ⟨?_, rfl⟩
  obtain ⟨h1, h2, h3⟩ := (evaluate_eq_eligible root fs u d).1 hv
  have h1f : ¬ pyStartsWith u.username "train" = false := by simp [h1]
  have h3f : ¬ is_dir fs (root ++ [d.username]) = false := by
    rw [← h2]
    simp [h3]
  rw [h2] at hg
  rcases hgp : confirm_user_cleanup u.username (root ++ [d.username]) cf
      (ch u.username) with ⟨gr, gtr⟩
  rw [hgp] at hg
  simp only at hg
  subst hg
  have hgmut := gate_mutationEvents u.username (root ++ [d.username]) cf
    (ch u.username)
  rw [hgp] at hgmut
  simp only at hgmut
  simp [processUser, hd, h1f, h2, h3f, hgp, hp, mutationEvents,
    List.filter_eq_nil_iff] at hgmut ⊢
  intro a ha
  simpa using hgmut a ha

end JasminHomedirManager

namespace JasminHomedirManager

/-- Claim C9: the `train`-prefix check and the helper invocation use the
list-record username, while the expected home path is built from the
detail-record username.  Hence a candidate whose list username starts
with `train` but whose detail username does not is still Eligible when
the reported home equals `home_dir_root/detail-username` and exists, and
real mode then deletes that non-training user's home directory and runs
the helper for the list username. -/
theorem claim_C9_username_confusion (root : Path)
    (dt : String → Except Unit UserDetail) (ch : String → Choice)
    (pr : String → Except Unit Unit) (he : String → Int)
    (fs : List Path) (u : ListUser) (d : UserDetail)
    (hd : dt u.url = Except.ok d)
    (h1 : pyStartsWith u.username "train" = true)
    (h2 : pyStartsWith d.username "train" = false)
    (h3 : d.homeDirectory = root ++ [d.username])
    (h4 : is_dir fs d.homeDirectory = true)
    (hp : pr u.url = Except.ok ()) :
    evaluate root fs u d = Verdict.eligible
    ∧ pyStartsWith d.username "train" = false
    ∧ processUser ⟨root, false, false, dt, ch, pr, he⟩ fs u =
        (rmtreeFs fs (root ++ [d.username]),
         [Event.getDetail u.url,
          Event.logInfoRemoving (root ++ [d.username]),
          Event.rmtree (root ++ [d.username]),
          Event.runHelper ["/usr/sbin/mkhomedir_helper", u.username] false,
          Event.patch u.url [("lifecycle_state", "NORMAL")]], none) := by
  have h1f : ¬ pyStartsWith u.username "train" = false := by simp [h1]
  have h4f : ¬ is_dir fs (root ++ [d.username]) = false := by
    rw [← h3]
    simp [h4]
  refine ⟨(evaluate_eq_eligible root fs u d).2 ⟨h1, h3, h4⟩, h2, ?_⟩
  simp [processUser, hd, h1f, h3, h4f, confirm_user_cleanup, hp]

/-- Witness for claim C9 at a concrete input: list username `train001`
with detail username `bob` and reported home `home/users/bob` (which
exists) is Eligible, and real mode deletes `home/users/bob` while
invoking the helper for `train001`. -/
theorem claim_C9_username_confusion_witness :
    evaluate croot cfsBob cuser1 ⟨"bob", ["home", "users", "bob"]⟩ =
      Verdict.eligible
    ∧ pyStartsWith "bob" "train" = false
    ∧ processUser cEnvBob cfsBob cuser1 =
        (rmtreeFs cfsBob (croot ++ ["bob"]),
         [Event.getDetail "u1",
          Event.logInfoRemoving (croot ++ ["bob"]),
          Event.rmtree (croot ++ ["bob"]),
          Event.runHelper ["/usr/sbin/mkhomedir_helper", "train001"] false,
          Event.patch "u1" [("lifecycle_state", "NORMAL")]], none) :=
  claim_C9_username_confusion croot cdetailFnBob (fun _ => Choice.yes)
    (fun _ => Except.ok ()) (fun _ => 0) cfsBob cuser1
    ⟨"bob", ["home", "users", "bob"]⟩ rfl (by decide) (by decide) rfl
    (by decide) rfl

end JasminHomedirManager

namespace JasminHomedirManager

lemma processUser_shape (env : Env) (fs : List Path) (u : ListUser) :
    ∃ mid, (processUser env fs u).2.1 = Event.getDetail u.url :: mid
      ∧ detailEvents mid = [] ∧ listGetEvents mid = [] := by
  rcases hdet : env.detail u.url with e | d
  · exact ⟨[], by simp [processUser, hdet], by simp [detailEvents],
      by simp [listGetEvents]⟩
  · by_cases h1 : pyStartsWith u.username "train" = false
    · exact ⟨[Event.logCritical u.username], by simp [processUser, hdet, h1],
        by simp [detailEvents], by simp [listGetEvents]⟩
    · by_cases h2 : d.homeDirectory = env.home_dir_folder ++ [d.username]
      · by_cases h3 : is_dir fs d.homeDirectory = false
        · rw [h2] at h3
          exact ⟨[Event.logErrorMissing u.username],
            by simp [processUser, hdet, h1, h2, h3],
            by simp [detailEvents], by simp [listGetEvents]⟩
        · rw [h2] at h3
          rcases hgp : confirm_user_cleanup u.username
              (env.home_dir_folder ++ [d.username]) env.careful
              (env.choice u.username) with ⟨gr, gtr⟩
          have hgd := gate_detailEvents u.username
            (env.home_dir_folder ++ [d.username]) env.careful
            (env.choice u.username)
          have hgl := gate_listGetEvents u.username
            (env.home_dir_folder ++ [d.username]) env.careful
            (env.choice u.username)
          rw [hgp] at hgd hgl
          simp only at hgd hgl
          cases gr with
          | abortExn =>
            exact ⟨gtr, by simp [processUser, hdet, h1, h2, h3, hgp], hgd, hgl⟩
          | ret b =>
            cases b
            · exact ⟨gtr ++ [Event.logErrorSkip u.username],
                by simp [processUser, hdet, h1, h2, h3, hgp],
                by simpa [detailEvents] using hgd,
                by simpa [listGetEvents] using hgl⟩
            · by_cases hdr : env.dry_run = true
              · refine ⟨gtr ++ [Event.logInfoRemoving
                    (env.home_dir_folder ++ [d.username]),
                    Event.echoDryMove (env.home_dir_folder ++ [d.username]),
                    Event.echoDryCreate u.username,
                    Event.echoDryUpdate u.username],
                  by simp [processUser, hdet, h1, h2, h3, hgp, hdr], ?_, ?_⟩
                · simpa [detailEvents] using hgd
                · simpa [listGetEvents] using hgl
              · rcases hpr : env.patchResp u.url with e | v
                · refine ⟨gtr ++ [Event.logInfoRemoving
                      (env.home_dir_folder ++ [d.username]),
                      Event.rmtree (env.home_dir_folder ++ [d.username]),
                      Event.runHelper ["/usr/sbin/mkhomedir_helper", u.username]
                        false,
                      Event.patch u.url [("lifecycle_state", "NORMAL")]],
                    by simp [processUser, hdet, h1, h2, h3, hgp, hdr, hpr],
                    ?_, ?_⟩
                  · simpa [detailEvents] using hgd
                  · simpa [listGetEvents] using hgl
                · refine ⟨gtr ++ [Event.logInfoRemoving
                      (env.home_dir_folder ++ [d.username]),
                      Event.rmtree (env.home_dir_folder ++ [d.username]),
                      Event.runHelper ["/usr/sbin/mkhomedir_helper", u.username]
                        false,
                      Event.patch u.url [("lifecycle_state", "NORMAL")]],
                    by simp [processUser, hdet, h1, h2, h3, hgp, hdr, hpr],
                    ?_, ?_⟩
                  · simpa [detailEvents] using hgd
                  · simpa [listGetEvents] using hgl
      · exact ⟨[Event.logErrorPath u.username d.homeDirectory
            (env.home_dir_folder ++ [d.username])],
          by simp [processUser, hdet, h1, h2],
          by simp [detailEvents], by simp [listGetEvents]⟩

end JasminHomedirManager

namespace JasminHomedirManager

lemma runUsers_listGetEvents (env : Env) :
    ∀ (users : List ListUser) (fs : List Path),
      listGetEvents (runUsers env fs users).2.1 = [] := by
  intro users
  induction users with
  | nil => intro fs; simp [runUsers, listGetEvents]
  | cons u rest ih =>
    intro fs
    obtain ⟨mid, hmid, _, hlg⟩ := processUser_shape env fs u
    rcases hp : processUser env fs u with ⟨fs1, tr, halt⟩
    rw [hp] at hmid
    simp only at hmid
    have htr : listGetEvents tr = [] := by
      rw [hmid]
      simpa [listGetEvents] using hlg
    match halt with
    | some Halt.abort => simp [runUsers, hp, htr]
    | some Halt.exn => simp [runUsers, hp, htr]
    | none =>
      rcases hr : runUsers env fs1 rest with ⟨fs2, tr2, x⟩
      have := ih fs1
      rw [hr] at this
      simp only at this
      simp [runUsers, hp, hr, listGetEvents] at htr this ⊢
      exact ⟨htr, this⟩

lemma runUsers_detailEvents (env : Env) :
    ∀ (users : List ListUser) (fs : List Path),
      (runUsers env fs users).2.2 = RunExit.normal →
      detailEvents (runUsers env fs users).2.1 =
        users.map (fun u => Event.getDetail u.url) := by
  intro users
  induction users with
  | nil => intro fs _; simp [runUsers, detailEvents]
  | cons u rest ih =>
    intro fs hx
    obtain ⟨mid, hmid, hde, _⟩ := processUser_shape env fs u
    rcases hp : processUser env fs u with ⟨fs1, tr, halt⟩
    rw [hp] at hmid
    simp only at hmid
    have htr : detailEvents tr = [Event.getDetail u.url] := by
      rw [hmid]
      simpa [detailEvents] using hde
    match halt with
    | some Halt.abort => rw [runUsers, hp] at hx; simp at hx
    | some Halt.exn => rw [runUsers, hp] at hx; simp at hx
    | none =>
      rcases hr : runUsers env fs1 rest with ⟨fs2, tr2, x⟩
      have hih := ih fs1
      rw [hr] at hih
      simp only at hih
      rw [runUsers, hp] at hx ⊢
      simp only [hr] at hx ⊢
      subst hx
      simp only [detailEvents, List.filter_append, List.map] at htr hih ⊢
      rw [htr, hih trivial]
      simp

end JasminHomedirManager

namespace JasminHomedirManager

/-- Claim C8: the run performs exactly one candidate-list GET, and that
GET carries the query parameters `user_type=TRAINING`,
`lifecycle_state=AWAITING_CLEANUP`, `is_active=false`; on a run that
terminates normally the detail GET events of the whole trace are exactly
one per candidate, in strict list order (so no candidate is retried);
and a candidate whose verdict is not Eligible contributes no network
event beyond its single detail GET. -/
theorem claim_C8_orchestration (env : Env) (ep : String)
    (users : List ListUser) (fs : List Path) :
    listGetEvents (executeRun env ep users fs).2.1 =
      [Event.getList ep listParams]
    ∧ ((executeRun env ep users fs).2.2 = RunExit.normal →
        detailEvents (executeRun env ep users fs).2.1 =
          users.map (fun u => Event.getDetail u.url))
    ∧ (∀ fs2 u d, env.detail u.url = Except.ok d →
        evaluate env.home_dir_folder fs2 u d ≠ Verdict.eligible →
        netEvents (processUser env fs2 u).2.1 = [Event.getDetail u.url]) := by
  refine ⟨?_, ?_, ?_⟩
  · rcases hr : runUsers env fs users with ⟨fs1, tr, x⟩
    have hlg := runUsers_listGetEvents env users fs
    rw [hr] at hlg
    simp only at hlg
    simp [executeRun, hr, listGetEvents] at hlg ⊢
    exact hlg
  · intro hx
    rcases hr : runUsers env fs users with ⟨fs1, tr, x⟩
    have hde := runUsers_detailEvents env users fs
    rw [hr] at hde
    simp only at hde
    rw [executeRun, hr] at hx
    simp only at hx
    rw [executeRun, hr]
    simp only [detailEvents]
    simpa [detailEvents] using hde hx
  · intro fs2 u d hd hv
    by_cases h1 : pyStartsWith u.username "train" = false
    · simp [processUser, hd, h1, netEvents]
    · by_cases h2 : d.homeDirectory = env.home_dir_folder ++ [d.username]
      · by_cases h3 : is_dir fs2 d.homeDirectory = false
        · rw [h2] at h3
          simp [processUser, hd, h1, h2, h3, netEvents]
        · exact absurd ((evaluate_eq_eligible env.home_dir_folder fs2 u d).2
            ⟨by simpa using h1, h2, by simpa using h3⟩) hv
      · simp [processUser, hd, h1, h2, netEvents]

/-- Witness for claim C8 at a concrete input: a normal two-candidate run
fetches exactly the details of `u1` then `u2`, once each, and a
non-eligible candidate (missing directory) triggers only its one detail
GET. -/
theorem claim_C8_orchestration_witness :
    detailEvents (executeRun cEnvTwo "https://api/users/" [cuser1, cuser2]
        cfs2).2.1 = [Event.getDetail "u1", Event.getDetail "u2"]
    ∧ netEvents (processUser cEnvTwo [] cuser1).2.1 = [Event.getDetail "u1"] :=
  ⟨(claim_C8_orchestration cEnvTwo "https://api/users/" [cuser1, cuser2]
      cfs2).2.1 (by decide),
   (claim_C8_orchestration cEnvTwo "https://api/users/" [cuser1, cuser2]
      cfs2).2.2 [] cuser1 ⟨"train001", ["home", "users", "train001"]⟩ rfl
      (by decide)⟩

end JasminHomedirManager

namespace JasminHomedirManager

/-- Witness for claim C6 (amended) at a concrete input: with the helper
failing (exit status 1) on eligible candidate `train001`, the mutating
steps are delete, helper, PATCH in that order, and the processing result
equals the one with a succeeding helper (exit status 0). -/
theorem claim_C6_helper_best_effort_witness :
    mutationEvents (processUser cEnvHelperFail cfs cuser1).2.1 =
      [Event.rmtree ["home", "users", "train001"],
       Event.runHelper ["/usr/sbin/mkhomedir_helper", "train001"] false,
       Event.patch "u1" [("lifecycle_state", "NORMAL")]]
    ∧ processUser cEnvHelperFail cfs cuser1 = processUser cEnvReal cfs cuser1 :=
  claim_C6_helper_best_effort croot false cdetailFn (fun _ => Choice.yes)
    (fun _ => Except.ok ()) (fun _ => 1) (fun _ => 0) cfs cuser1 cdetail1
    rfl (by decide) (by decide) rfl

end JasminHomedirManager
